import Mathlib

/-!
Shallow embedding of the blob-js object-storage client.

The embedding follows the TypeScript source:
* `slice`, `exists`, `stream`/`arrayBuffer`/`text`/`bytes`, `write`, `presign`,
  `stat` from `R2FileReader` (src/unnamed/part_001);
* `list` normalization from src/src/lib/list.ts (the mapping in
  `Client.list`, src/unnamed/part_000, is textually identical);
* the listing command construction of both the standalone `list` function and
  the static/instance `Client.list`;
* `presigned` and `exists` from `BlobClient` (src/unnamed/part_002).

JavaScript conventions made explicit here:
* a record member can be absent, present with value `undefined`, or present
  with a proper value — modelled by `JVal`;
* `a ?? b` (nullish coalescing) skips only `undefined`/`null`;
* `a || b` skips every falsy value, in particular the empty string and the
  number 0 — modelled by the `jsOr*` helpers;
* a `Date` object is always truthy, so a `Date`-typed field is modelled by an
  `Option Nat` timestamp whose truthiness is its presence.
Machine numbers are modelled as `Int`/`Nat` (no overflow is relevant to the
byte offsets and durations involved). `Date.prototype.toISOString` is
abstracted by the injective stand-in `isoString`; no claim depends on the
concrete ISO-8601 text.
-/

namespace BlobJs

/-- A JavaScript record member: absent key, key present with `undefined`,
or key present with a value. -/
inductive JVal (α : Type) where
  | absent : JVal α
  | undefined : JVal α
  | val (a : α) : JVal α
deriving DecidableEq, Repr

/-- Reading a member with `??` / truthiness: `absent` and `undefined` both read as
`undefined`. -/
def JVal.get? {α : Type} : JVal α → Option α
  | .absent => none
  | .undefined => none
  | .val a => some a

/-- Whether a member is not present-with-`undefined` (it may be absent or
carry a value). -/
def JVal.notUndefined {α : Type} : JVal α → Bool
  | .undefined => false
  | _ => true

/-- JS truthiness of an optional string: `undefined`, `null` and `""` are
falsy. -/
def strTruthy : Option String → Bool
  | none => false
  | some s => s != ""

/-- `a || b` on optional strings: keep `a` when truthy, else `b` when truthy,
else `undefined`. -/
def jsOrStr (a b : Option String) : Option String :=
  if strTruthy a then a else if strTruthy b then b else none

/-- `a ?? b` on options: skip only `undefined`. -/
def jsNullish {α : Type} (a b : Option α) : Option α :=
  match a with
  | some x => some x
  | none => b

/-- `Date.prototype.toISOString` stand-in on epoch timestamps. -/
def isoString (t : Nat) : String :=
  toString t

/-! ## ObjectReference: `R2FileReader` state and `slice` -/

/-- The `range` member of `R2FileReader`: `{ begin?: number; end?: number }`.
The source field `end` is a Lean keyword, rendered `endPos`. -/
structure ByteRange where
  begin : Option Int
  endPos : Option Int
deriving DecidableEq, Repr

/-- The options record of the reader (`R2Options`), with the fields the
source reads: `bucket`, `type`, `acl`, `storageClass` and credentials.
`type` is a `JVal` because `slice` writes the member explicitly with value
`undefined` (`{ ...options, type }`). -/
structure R2Options where
  bucket : Option String := none
  type : JVal String := .absent
  acl : Option String := none
  storageClass : Option String := none
  accessKeyId : Option String := none
  secretAccessKey : Option String := none
  endpoint : Option String := none
deriving DecidableEq, Repr

/-- `R2FileReader`'s immutable state: `name`, `#options`, `#range`.
`#bucket` is derived (`options?.bucket ?? ""`). -/
structure FileRef where
  name : String
  options : R2Options
  range : Option ByteRange
deriving DecidableEq, Repr

/-- `options?.bucket ?? ""` as stored in `#bucket` by the constructor. -/
def FileRef.bucket (f : FileRef) : String :=
  (f.options.bucket).getD ""

/-- `Client.file(path, options)` / `new R2FileReader(path, options)` —
a fresh reference carries no range. -/
def file (path : String) (options : R2Options) : FileRef :=
  ⟨path, options, none⟩

/-- The argument shapes of `slice(beginOrContentType?, endOrContentType?,
contentType?)` after the runtime `typeof` dispatch of part_001 lines 56-69:
no argument, a single string, a number, a number and a string, or two
numbers and an optional string. -/
inductive SliceArgs where
  | noArgs : SliceArgs
  | typeOnly (t : String) : SliceArgs
  | beginOnly (b : Int) : SliceArgs
  | beginType (b : Int) (t : String) : SliceArgs
  | beginEnd (b e : Int) (t : Option String) : SliceArgs
deriving DecidableEq, Repr

/-- The local `type` after argument parsing. -/
def SliceArgs.typeArg : SliceArgs → Option String
  | .typeOnly t | .beginType _ t => some t
  | .beginEnd _ _ t => t
  | _ => none

/-- `this.#range?.begin ?? 0` — the `existingBegin` local of `slice`. -/
def rangeBegin0 (r : Option ByteRange) : Int :=
  (r.bind ByteRange.begin).getD 0

/-- `this.#range?.end` — the `existingEnd` local of `slice`. -/
def rangeEndOpt (r : Option ByteRange) : Option Int :=
  r.bind ByteRange.endPos

/-- The range composition of `slice` (part_001 lines 71-92): when `begin` or
`end` is supplied, `newRange.begin = (range?.begin ?? 0) + begin` (or the
existing begin) and `newRange.end = min((range?.begin ?? 0) + end, range.end)`
when `range.end` is defined, else `(range?.begin ?? 0) + end` (or the
existing end); otherwise the original range is kept. -/
def composeRange (r : Option ByteRange) : SliceArgs → Option ByteRange
  | .noArgs | .typeOnly _ => r
  | .beginOnly b | .beginType b _ =>
    some { begin := some (rangeBegin0 r + b), endPos := rangeEndOpt r }
  | .beginEnd b e _ =>
    some
      { begin := some (rangeBegin0 r + b)
        endPos :=
          match rangeEndOpt r with
          | some e0 => some (min (rangeBegin0 r + e) e0)
          | none => some (rangeBegin0 r + e) }

/-- `R2FileReader.slice`: same name, options spread with the (possibly
`undefined`) `type` member (`{ ...this.#options, type }`), and the composed
range. -/
def slice (f : FileRef) (args : SliceArgs) : FileRef :=
  { name := f.name
    options :=
      { f.options with
        type :=
          match args.typeArg with
          | some t => .val t
          | none => .undefined }
    range := composeRange f.range args }

/-- The spec's range invariant: when both `begin` and `end` are present,
`begin ≤ end`. -/
def rangeOk : Option ByteRange → Bool
  | some ⟨some b, some e⟩ => decide (b ≤ e)
  | _ => true

/-- References reachable by construction (`file`) and repeated slicing. -/
inductive Reachable : FileRef → Prop where
  | base (path : String) (opts : R2Options) : Reachable (file path opts)
  | step {f : FileRef} (args : SliceArgs) : Reachable f → Reachable (slice f args)

/-- A slice call whose two numeric arguments (when given) are ordered. -/
def SliceArgs.ordered : SliceArgs → Bool
  | .beginEnd b e _ => decide (b ≤ e)
  | _ => true

/-! ## Reads: `stream` / `arrayBuffer` / `text` / `bytes` / `json` -/

/-- The `GetObjectCommand({ Bucket, Key })` issued by `stream` (part_001 lines
135-140), `arrayBuffer` (162-167), `text` (186-191) and `bytes` (206-211);
`json` reads through `text` (line 201). No byte-range parameter is derived
from the stored range. -/
structure GetCommand where
  Bucket : String
  Key : String
deriving DecidableEq, Repr

/-- The single GET command all read operations construct. -/
def readGetCommand (f : FileRef) : GetCommand :=
  ⟨f.bucket, f.name⟩

/-- The bytes a read materializes, given the backend store: the drained body of
the GET response for (bucket, key), or empty when the response has no body. -/
def bytesRead (store : String → String → Option (List Nat)) (f : FileRef) : List Nat :=
  (store f.bucket f.name).getD []

/-! ## StatProbe: `exists` / `stat` -/

/-- Metadata of a successful `HeadObjectCommand` response. -/
structure HeadMeta where
  ContentType : Option String := none
  ETag : Option String := none
  ContentLength : Option Nat := none
  LastModified : Option Nat := none
deriving DecidableEq, Repr

/-- Outcome of `this.#client.send(new HeadObjectCommand(...))`: either the
response metadata or a thrown error, carrying its `name`. -/
inductive HeadOutcome where
  | success (m : HeadMeta) : HeadOutcome
  | failure (name : String) : HeadOutcome
deriving DecidableEq, Repr

/-- `exists()` (part_001 lines 101-123; `BlobClient.exists`, part_002 lines
384-405, is textually identical): `true` on success; `false` when the caught
error's `name` is `"NotFound"` or `"NoSuchKey"`; otherwise the error is
re-thrown. -/
def existsProbe : HeadOutcome → Except String Bool
  | .success _ => .ok true
  | .failure n =>
    if n = "NotFound" || n = "NoSuchKey" then .ok false else .error n

/-- The `S3Stat` record (part_001 lines 353-364): defaults `""`, `""`, `0`,
`new Date()` (the current time, passed in as `now`). -/
structure Stats where
  type : String
  etag : String
  size : Nat
  lastModified : Nat
deriving DecidableEq, Repr

/-- `stat()` (part_001 lines 331-350): maps a successful head response into
`S3Stat` and re-throws every error (including not-found) unmodified. -/
def statProbe (now : Nat) : HeadOutcome → Except String Stats
  | .success m =>
    .ok ⟨m.ContentType.getD "", m.ETag.getD "", m.ContentLength.getD 0,
      m.LastModified.getD now⟩
  | .failure n => .error n

/-! ## PresignIssuer: `presign` / `presigned` -/

/-- The options record of `presign` / `presigned`. -/
structure PresignOpts where
  method : Option String := none
  expiresIn : Option Nat := none
  type : Option String := none
  acl : Option String := none
deriving DecidableEq, Repr

/-- A command handed to `getSignedUrl`. -/
inductive SignCommand where
  | getObj (bucket key : String) : SignCommand
  | putObj (bucket key : String) (contentType acl : Option String) : SignCommand
  | delObj (bucket key : String) : SignCommand
  | headObj (bucket key : String) : SignCommand
deriving DecidableEq, Repr

/-- `R2FileReader.presign` command selection (part_001 lines 280-313):
`options?.method || "GET"`, switch over GET / PUT / DELETE / HEAD, default
branch throws `Unsupported method`. PUT carries
`options?.type ?? this.#options?.type` and `options?.acl`. -/
def presignCommand (bucket name : String) (instType : JVal String)
    (opts : Option PresignOpts) : Except String SignCommand :=
  let method := (jsOrStr (opts.bind PresignOpts.method) (some "GET")).getD "GET"
  if method = "GET" then .ok (.getObj bucket name)
  else if method = "PUT" then
    .ok (.putObj bucket name
      (jsNullish (opts.bind PresignOpts.type) instType.get?)
      (opts.bind PresignOpts.acl))
  else if method = "DELETE" then .ok (.delObj bucket name)
  else if method = "HEAD" then .ok (.headObj bucket name)
  else .error ("Unsupported method: " ++ method)

/-- `BlobClient.presigned` command selection (part_002 lines 344-378):
`options?.method ?? "GET"`, switch over the same four methods, but the
default branch signs a `GetObjectCommand` instead of throwing, and PUT
carries neither content-type nor ACL. -/
def presignedCommand (bucket path : String) (opts : Option PresignOpts) : SignCommand :=
  let method := (opts.bind PresignOpts.method).getD "GET"
  if method = "GET" then .getObj bucket path
  else if method = "PUT" then .putObj bucket path none none
  else if method = "DELETE" then .delObj bucket path
  else if method = "HEAD" then .headObj bucket path
  else .getObj bucket path

/-- `options?.expiresIn || 900` (part_001 line 316): `||` also replaces a
supplied 0. -/
def presignExpiresIn (o : Option Nat) : Nat :=
  match o with
  | some nn => if nn = 0 then 900 else nn
  | none => 900

/-- `options?.expiresIn ?? 3600` (part_002 line 380). -/
def presignedExpiresIn (o : Option Nat) : Nat :=
  o.getD 3600

/-! ## PayloadNormalizer: `write` -/

/-- `new TextEncoder().encode(data)` — the UTF-8 bytes of a string. -/
def strBytes (s : String) : List Nat :=
  s.toUTF8.toList.map UInt8.toNat

/-- The payload shapes `write` dispatches on (part_001 lines 248-264): string,
`ArrayBuffer`/`SharedArrayBuffer`, `ArrayBufferView`, `Request`/`Response`
(body bytes plus the `content-type` header, `null` when absent), `Blob`
(body bytes plus its intrinsic `type`, `""` by default), anything else. -/
inductive WriteData where
  | str (s : String) : WriteData
  | buf (bytes : List Nat) : WriteData
  | view (bytes : List Nat) : WriteData
  | requestLike (bytes : List Nat) (headerContentType : Option String) : WriteData
  | responseLike (bytes : List Nat) (headerContentType : Option String) : WriteData
  | blobLike (bytes : List Nat) (btype : String) : WriteData
  | other : WriteData
deriving DecidableEq, Repr

/-- `R2FileReader.write` (part_001 lines 233-278), projected onto the body
bytes and the `ContentType` given to `PutObjectCommand`:
`contentType = options?.type ?? this.#options?.type`, then for request-like,
response-like and blob-like payloads
`contentType = contentType || <payload type> || undefined`; an unrecognized
shape throws `Unsupported data type`. -/
def writePut (instType : JVal String) (opts : Option R2Options) :
    WriteData → Except String (List Nat × Option String) :=
  let ct0 := jsNullish ((opts.map R2Options.type).bind JVal.get?) instType.get?
  fun data =>
    match data with
    | .str s => .ok (strBytes s, ct0)
    | .buf bs => .ok (bs, ct0)
    | .view bs => .ok (bs, ct0)
    | .requestLike bs h => .ok (bs, jsOrStr ct0 h)
    | .responseLike bs h => .ok (bs, jsOrStr ct0 h)
    | .blobLike bs t => .ok (bs, jsOrStr ct0 (some t))
    | .other => .error "Unsupported data type"

/-! ## ListNormalizer -/

/-- The caller-side listing options (`R2ListObjectsOptions`, src/index.ts
lines 3-11). -/
structure ListInput where
  keyPrefix : Option String := none
  continuationToken : Option String := none
  delimiter : Option String := none
  maxKeys : Option Nat := none
  startAfter : Option String := none
  encodingType : Option String := none
  fetchOwner : Option Bool := none
deriving DecidableEq, Repr

/-- The fields of a `ListObjectsV2Command`. -/
structure ListCommand where
  Bucket : Option String := none
  Prefix : Option String := none
  ContinuationToken : Option String := none
  Delimiter : Option String := none
  MaxKeys : Option Nat := none
  FetchOwner : Option Bool := none
  EncodingType : Option String := none
  StartAfter : Option String := none
deriving DecidableEq, Repr

/-- The command built by the standalone `list` (src/src/lib/list.ts lines
20-31): every caller filter is passed through. -/
def listCommand (input : Option ListInput) (bucket : Option String) : ListCommand :=
  { Bucket := bucket
    Prefix := input.bind ListInput.keyPrefix
    ContinuationToken := input.bind ListInput.continuationToken
    Delimiter := input.bind ListInput.delimiter
    MaxKeys := input.bind ListInput.maxKeys
    FetchOwner := input.bind ListInput.fetchOwner
    EncodingType := input.bind ListInput.encodingType
    StartAfter := input.bind ListInput.startAfter }

/-- The command built by the static `Client.list` (part_000 lines 603-607),
which the instance `Client.list` (lines 552-560) delegates to: only the
bucket is set; the caller's `input` is ignored. -/
def clientListCommand (input : Option ListInput) (bucket : Option String) : ListCommand :=
  { Bucket := bucket }

/-- A raw `Owner` record of the backend response. -/
structure RawOwner where
  ID : Option String := none
  DisplayName : Option String := none
deriving DecidableEq, Repr

/-- A raw `RestoreStatus` record of the backend response (`RestoreExpiryDate`
is a `Date`). -/
structure RawRestoreStatus where
  IsRestoreInProgress : Option Bool := none
  RestoreExpiryDate : Option Nat := none
deriving DecidableEq, Repr

/-- A raw entry of `response.Contents` (`LastModified` is a `Date`). -/
structure RawContent where
  Key : Option String := none
  ETag : Option String := none
  ChecksumAlgorithm : Option (List String) := none
  ChecksumType : Option String := none
  LastModified : Option Nat := none
  Owner : Option RawOwner := none
  RestoreStatus : Option RawRestoreStatus := none
  Size : Option Nat := none
  StorageClass : Option String := none
deriving DecidableEq, Repr

/-- A raw `ListObjectsV2` response. -/
structure RawListResponse where
  Name : Option String := none
  Prefix : Option String := none
  Delimiter : Option String := none
  ContinuationToken : Option String := none
  NextContinuationToken : Option String := none
  StartAfter : Option String := none
  EncodingType : Option String := none
  IsTruncated : Option Bool := none
  MaxKeys : Option Nat := none
  KeyCount : Option Nat := none
  CommonPrefixes : Option (List (Option String)) := none
  Contents : Option (List RawContent) := none
deriving DecidableEq, Repr

/-- `if (response.X) { listObject.x = response.X }` for a string field: the
member is written only when the source string is truthy. -/
def jvalOfTruthyStr (o : Option String) : JVal String :=
  match o with
  | some s => if s = "" then .absent else .val s
  | none => .absent

/-- `if (response.X !== undefined) { listObject.x = response.X }`: the member
is written exactly when the source field is present. -/
def jvalOfPresent {α : Type} (o : Option α) : JVal α :=
  match o with
  | some a => .val a
  | none => .absent

/-- A member written unconditionally with a possibly-`undefined` source value
(`id: c.Owner?.ID` and the like). -/
def jvalMember {α : Type} (o : Option α) : JVal α :=
  match o with
  | some a => .val a
  | none => .undefined

/-- Normalized `owner` (list.ts lines 98-103): both members are written
unconditionally. -/
structure NOwner where
  id : JVal String
  displayName : JVal String
deriving DecidableEq, Repr

/-- Normalized `restoreStatus` (list.ts lines 105-112): both members are
written unconditionally; `restoreExpiryDate` is explicitly `undefined` when
the source `Date` is absent. -/
structure NRestoreStatus where
  isRestoreInProgress : JVal Bool
  restoreExpiryDate : JVal String
deriving DecidableEq, Repr

/-- A normalized content entry (`R2ListObjectContent`). -/
structure NContent where
  key : String
  eTag : String
  checksumAlgorithm : JVal String
  checksumType : JVal String
  lastModified : JVal String
  owner : JVal NOwner
  restoreStatus : JVal NRestoreStatus
  size : JVal Nat
  storageClass : JVal String
deriving DecidableEq, Repr

/-- The normalized `R2ListObjectsResponse`. -/
structure ListResponse where
  name : JVal String
  keyPrefix : JVal String
  delimiter : JVal String
  continuationToken : JVal String
  nextContinuationToken : JVal String
  startAfter : JVal String
  encodingType : JVal String
  isTruncated : JVal Bool
  maxKeys : JVal Nat
  keyCount : JVal Nat
  commonPrefixes : JVal (List String)
  contents : JVal (List NContent)
deriving DecidableEq, Repr

/-- Normalization of one content entry (list.ts lines 80-123): `key`/`eTag`
default to `""`; `checksumAlgorithm` only when the first array element is
truthy; `lastModified` when the source `Date` is present (a `Date` is always
truthy, so the `|| Date.now()` alternative never fires); `owner` and
`restoreStatus` as whole records when present, with their members written
unconditionally; `size` and `storageClass` when not `undefined`. -/
def normalizeContent (c : RawContent) : NContent :=
  { key := c.Key.getD ""
    eTag := c.ETag.getD ""
    checksumAlgorithm :=
      match c.ChecksumAlgorithm with
      | some (a :: _) => if a = "" then .absent else .val a
      | _ => .absent
    checksumType := jvalOfTruthyStr c.ChecksumType
    lastModified :=
      match c.LastModified with
      | some t => .val (isoString t)
      | none => .absent
    owner :=
      match c.Owner with
      | some ow => .val ⟨jvalMember ow.ID, jvalMember ow.DisplayName⟩
      | none => .absent
    restoreStatus :=
      match c.RestoreStatus with
      | some rs =>
        .val ⟨jvalMember rs.IsRestoreInProgress,
          match rs.RestoreExpiryDate with
          | some d => .val (isoString d)
          | none => .undefined⟩
      | none => .absent
    size := jvalOfPresent c.Size
    storageClass := jvalOfPresent c.StorageClass }

/-- The response normalization shared by the standalone `list` (list.ts lines
33-126) and `Client.list` (part_000 lines 609-703): each member is written
only under its guard (`if (response.X)` for strings and the two arrays,
`!== undefined` for `isTruncated`, `maxKeys`, `keyCount`). -/
def listNormalize (r : RawListResponse) : ListResponse :=
  { name := jvalOfTruthyStr r.Name
    keyPrefix := jvalOfTruthyStr r.Prefix
    delimiter := jvalOfTruthyStr r.Delimiter
    continuationToken := jvalOfTruthyStr r.ContinuationToken
    nextContinuationToken := jvalOfTruthyStr r.NextContinuationToken
    startAfter := jvalOfTruthyStr r.StartAfter
    encodingType := jvalOfTruthyStr r.EncodingType
    isTruncated := jvalOfPresent r.IsTruncated
    maxKeys := jvalOfPresent r.MaxKeys
    keyCount := jvalOfPresent r.KeyCount
    commonPrefixes :=
      match r.CommonPrefixes with
      | some ps => .val (ps.map (fun p => p.getD ""))
      | none => .absent
    contents :=
      match r.Contents with
      | some cs => .val (cs.map normalizeContent)
      | none => .absent }

/-- Sparseness of a normalized owner record: no member is
present-with-`undefined`. -/
def ownerSparse (ow : NOwner) : Bool :=
  ow.id.notUndefined && ow.displayName.notUndefined

/-- Sparseness of a normalized restore-status record. -/
def restoreSparse (rs : NRestoreStatus) : Bool :=
  rs.isRestoreInProgress.notUndefined && rs.restoreExpiryDate.notUndefined

/-- Sparseness of a content entry's own members, not looking inside `owner`
and `restoreStatus`. -/
def contentShallowSparse (c : NContent) : Bool :=
  c.checksumAlgorithm.notUndefined && c.checksumType.notUndefined &&
    c.lastModified.notUndefined && c.owner.notUndefined && c.restoreStatus.notUndefined &&
    c.size.notUndefined && c.storageClass.notUndefined

/-- Full sparseness of a content entry, including the nested records. -/
def contentSparse (c : NContent) : Bool :=
  contentShallowSparse c &&
    (match c.owner with
     | .val ow => ownerSparse ow
     | _ => true) &&
    (match c.restoreStatus with
     | .val rs => restoreSparse rs
     | _ => true)

/-- Sparseness of the top-level members of a normalized response. -/
def responseTopSparse (r : ListResponse) : Bool :=
  r.name.notUndefined && r.keyPrefix.notUndefined && r.delimiter.notUndefined &&
    r.continuationToken.notUndefined && r.nextContinuationToken.notUndefined &&
    r.startAfter.notUndefined && r.encodingType.notUndefined && r.isTruncated.notUndefined &&
    r.maxKeys.notUndefined && r.keyCount.notUndefined && r.commonPrefixes.notUndefined &&
    r.contents.notUndefined

/-- Full sparseness of a normalized response: no member anywhere is
present-with-`undefined`. -/
def responseSparse (r : ListResponse) : Bool :=
  responseTopSparse r &&
    (match r.contents with
     | .val cs => cs.all contentSparse
     | _ => true)

end BlobJs

namespace BlobJs

/-! ## Helper lemmas -/

@[simp]
theorem rangeBegin0_some (x : ByteRange) : rangeBegin0 (some x) = x.begin.getD 0 := rfl

@[simp]
theorem rangeEndOpt_some (x : ByteRange) : rangeEndOpt (some x) = x.endPos := rfl

theorem notUndefined_jvalOfTruthyStr (o : Option String) :
    (jvalOfTruthyStr o).notUndefined = true := by
  cases o with
  | none => rfl
  | some s =>
    simp only [jvalOfTruthyStr]
    split <;> rfl

theorem notUndefined_jvalOfPresent {α : Type} (o : Option α) :
    (jvalOfPresent o).notUndefined = true := by
  cases o <;> rfl

theorem contentShallowSparse_normalize (c : RawContent) :
    contentShallowSparse (normalizeContent c) = true := by
  rcases c with ⟨K, E, CA, CT, LM, OW, RS, SZ, SC⟩
  simp only [contentShallowSparse, normalizeContent, Bool.and_eq_true]
  refine ⟨⟨⟨⟨⟨⟨?_, ?_⟩, ?_⟩, ?_⟩, ?_⟩, ?_⟩, ?_⟩
  · rcases CA with _ | ⟨_ | ⟨a, l⟩⟩
    · rfl
    · rfl
    · dsimp only
      split <;> rfl
  · exact notUndefined_jvalOfTruthyStr _
  · cases LM <;> rfl
  · cases OW <;> rfl
  · cases RS <;> rfl
  · exact notUndefined_jvalOfPresent _
  · exact notUndefined_jvalOfPresent _

/-! ## C1 — slice associativity over the range -/

/-- Range-level associativity of the slice composition: for `c ≤ d`, slicing
first with `(a, d)` and then with `(b - a, c - a)` composes to the same range
as slicing once with `(b, c)`. -/
theorem composeRange_assoc (r : Option ByteRange) (a b c d : Int) (hcd : c ≤ d) :
    composeRange (composeRange r (.beginEnd a d none)) (.beginEnd (b - a) (c - a) none) =
      composeRange r (.beginEnd b c none) := by
  simp only [composeRange, rangeBegin0_some, rangeEndOpt_some, Option.getD_some]
  cases h : rangeEndOpt r <;>
    simp [h, ByteRange.mk.injEq, inf_eq_min] <;> omega

/-- C1: slice is associative over the range: for every reference `R` and all
integers `a ≤ b ≤ c ≤ d`, the range of `slice(slice(R, a, d), b-a, c-a)`
equals the range of `slice(R, b, c)`, under the composition rule
`new begin = (range.begin ?? 0) + begin` and
`new end = min((range.begin ?? 0) + end, range.end)` when `range.end` is
defined, else `(range.begin ?? 0) + end`. -/
theorem slice_range_assoc (R : FileRef) (a b c d : Int)
    (hab : a ≤ b) (hbc : b ≤ c) (hcd : c ≤ d) :
    (slice (slice R (.beginEnd a d none)) (.beginEnd (b - a) (c - a) none)).range =
      (slice R (.beginEnd b c none)).range := by
  simpa [slice] using composeRange_assoc R.range a b c d hcd

/-- Witness for C1 at `R = ⟨"k", {}, some ⟨some 5, some 100⟩⟩`,
`a, b, c, d = 1, 2, 3, 4`. -/
theorem slice_range_assoc_witness :
    (slice (slice ⟨"k", {}, some ⟨some 5, some 100⟩⟩ (.beginEnd 1 4 none))
        (.beginEnd (2 - 1) (3 - 1) none)).range =
      (slice (⟨"k", {}, some ⟨some 5, some 100⟩⟩ : FileRef) (.beginEnd 2 3 none)).range :=
  slice_range_assoc ⟨"k", {}, some ⟨some 5, some 100⟩⟩ 1 2 3 4 (by decide) (by decide)
    (by decide)

/-! ## C8 — the range invariant under construction and slicing -/

/-- C8 counterexample: the chain
`slice(slice(file "k", 0, 5), 10, 20)` is reachable (all slice arguments
ordered, `0 ≤ 5` and `10 ≤ 20`) yet its range is `{begin: 10, end: 5}` with
`begin > end`, so not every reachable reference satisfies the invariant. -/
theorem range_invariant_cex :
    ¬ ∀ f : FileRef, Reachable f → rangeOk f.range = true := by
  intro h
  have hr : Reachable
      (slice (slice (file "k" {}) (.beginEnd 0 5 none)) (.beginEnd 10 20 none)) :=
    Reachable.step _ (Reachable.step _ (Reachable.base "k" {}))
  exact absurd (h _ hr) (by decide)

/-- C8 amended: a freshly constructed reference carries no range, and a single
slice of it with ordered arguments satisfies the invariant; repeated slicing
does not preserve it (the composed begin may exceed the clamped end). -/
theorem range_invariant_single_slice (path : String) (opts : R2Options)
    (args : SliceArgs) (h : args.ordered = true) :
    (file path opts).range = none ∧
      rangeOk (slice (file path opts) args).range = true := by
  refine ⟨rfl, ?_⟩
  cases args <;>
    simp_all [slice, file, composeRange, rangeOk, rangeBegin0, rangeEndOpt,
      SliceArgs.ordered]

/-- Witness for C8's amended claim at `args = beginEnd 2 7 none`. -/
theorem range_invariant_single_slice_witness :
    (file "k" {}).range = none ∧
      rangeOk (slice (file "k" {}) (.beginEnd 2 7 none)).range = true :=
  range_invariant_single_slice "k" {} (.beginEnd 2 7 none) (by decide)

/-! ## C9 — reads are parameterized only by bucket and key -/

/-- C9: every read operation issues a GET parameterized only by bucket and
key, so for any slice arguments the command — and hence the bytes read — of
`slice(R, ...)` equal those of `R` itself. -/
theorem read_ignores_range (f : FileRef) (args : SliceArgs)
    (store : String → String → Option (List Nat)) :
    readGetCommand (slice f args) = readGetCommand f ∧
      bytesRead store (slice f args) = bytesRead store f := by
  constructor <;> simp [readGetCommand, bytesRead, slice, FileRef.bucket]

/-! ## C10 — slicing without a content-type argument erases the override -/

/-- C10: `slice()`, `slice(begin)` and `slice(begin, end)` build the new
options as `{ ...options, type }` with `type` undefined: the `type` member is
present with an explicit `undefined` value, erasing any previously-set
content-type override, and every other option member is preserved. -/
theorem slice_without_type_erases (f : FileRef) (b e : Int) :
    (slice f .noArgs).options.type = JVal.undefined ∧
      (slice f (.beginOnly b)).options.type = JVal.undefined ∧
      (slice f (.beginEnd b e none)).options.type = JVal.undefined ∧
      (slice f (.beginEnd b e none)).options = { f.options with type := JVal.undefined } := by
  refine ⟨rfl, rfl, rfl, ?_⟩
  simp [slice, SliceArgs.typeArg]

/-! ## C2 — exists / stat error handling -/

/-- C2: `exists()` returns `true` when the probe succeeds, `false` exactly
when the probe fails with error name `"NotFound"` or `"NoSuchKey"`, and
re-raises every other error unmodified; `stat()` — the only other operation
that catches errors at all — propagates every error, so no other operation
converts not-found into a boolean. -/
theorem exists_probe_spec (m : HeadMeta) (n : String) (now : Nat) :
    existsProbe (.success m) = .ok true ∧
      (n = "NotFound" ∨ n = "NoSuchKey" → existsProbe (.failure n) = .ok false) ∧
      (n ≠ "NotFound" → n ≠ "NoSuchKey" → existsProbe (.failure n) = .error n) ∧
      statProbe now (.failure n) = .error n := by
  refine ⟨rfl, ?_, ?_, rfl⟩ <;> intro h <;> simp_all [existsProbe]

/-- Witness for C2 at concrete outcomes: a `NotFound` failure maps to
`ok false`, an `AccessDenied` failure is re-raised, a success maps to
`ok true`, and `stat` propagates `NotFound`. -/
theorem exists_probe_spec_witness :
    existsProbe (.failure "NotFound") = .ok false ∧
      existsProbe (.failure "AccessDenied") = .error "AccessDenied" ∧
      existsProbe (.success {}) = .ok true ∧
      statProbe 0 (.failure "NotFound") = .error "NotFound" :=
  ⟨(exists_probe_spec {} "NotFound" 0).2.1 (Or.inl rfl),
    (exists_probe_spec {} "AccessDenied" 0).2.2.1 (by decide) (by decide),
    (exists_probe_spec {} "AccessDenied" 0).1,
    (exists_probe_spec {} "NotFound" 0).2.2.2⟩

/-! ## C5 — presign method dispatch -/

/-- C5 counterexample: `presigned(path, { method: "PATCH" })` on the
client-level path does not fail — the default switch branch signs a plain
GET command — refuting "fails with UnsupportedOperationError on every
presign path". -/
theorem presign_unsupported_cex :
    presignedCommand "b" "p" (some { method := some "PATCH" }) =
      SignCommand.getObj "b" "p" := by decide

/-- C5 amended: on the per-object path (`R2FileReader.presign`) an
unrecognized non-empty method fails with an unsupported-method error, GET and
HEAD sign read commands with no body parameters, PUT signs a write command
carrying content-type (per-call, else instance default) and ACL, DELETE signs
a delete command, and an absent method defaults to GET; on the client-level
path (`BlobClient.presigned`) an unrecognized method silently signs a GET
command instead of failing and PUT carries neither content-type nor ACL. -/
theorem presign_method_dispatch (bucket name m : String) (instType : JVal String)
    (t acl : Option String)
    (hg : m ≠ "GET") (hp : m ≠ "PUT") (hd : m ≠ "DELETE") (hh : m ≠ "HEAD")
    (he : m ≠ "") :
    presignCommand bucket name instType (some { method := some m }) =
        .error ("Unsupported method: " ++ m) ∧
      presignedCommand bucket name (some { method := some m }) = .getObj bucket name ∧
      presignCommand bucket name instType none = .ok (.getObj bucket name) ∧
      presignedCommand bucket name none = .getObj bucket name ∧
      presignCommand bucket name instType
          (some { method := some "HEAD" }) = .ok (.headObj bucket name) ∧
      presignCommand bucket name instType
          (some { method := some "PUT", type := t, acl := acl }) =
        .ok (.putObj bucket name (jsNullish t instType.get?) acl) ∧
      presignCommand bucket name instType
          (some { method := some "DELETE" }) = .ok (.delObj bucket name) ∧
      presignedCommand bucket name (some { method := some "PUT" }) =
        .putObj bucket name none none := by
  refine ⟨?_, ?_, rfl, rfl, rfl, rfl, rfl, rfl⟩ <;>
    simp [presignCommand, presignedCommand, jsOrStr, strTruthy, he, hg, hp, hd, hh]

/-- Witness for C5's amended claim at method `"PATCH"`. -/
theorem presign_method_dispatch_witness :
    presignCommand "b" "k" JVal.absent (some { method := some "PATCH" }) =
        .error ("Unsupported method: " ++ "PATCH") ∧
      presignedCommand "b" "k" (some { method := some "PATCH" }) = .getObj "b" "k" :=
  ⟨(presign_method_dispatch "b" "k" "PATCH" JVal.absent none none
      (by decide) (by decide) (by decide) (by decide) (by decide)).1,
    (presign_method_dispatch "b" "k" "PATCH" JVal.absent none none
      (by decide) (by decide) (by decide) (by decide) (by decide)).2.1⟩

/-! ## C7 — presign expiry defaults -/

/-- C7 counterexample: on the per-object path a supplied `expiresIn` of 0 is
not used — `options?.expiresIn || 900` replaces it with 900 — refuting "when
expiresIn is supplied it is used instead". -/
theorem presign_expiry_zero_cex :
    presignExpiresIn (some 0) = 900 ∧ (900 : Nat) ≠ 0 := by decide

/-- C7 amended: with no `expiresIn`, the per-object path uses 900 seconds and
the client-level path 3600 seconds; a supplied nonzero `expiresIn` is used on
both paths; a supplied 0 is replaced by 900 on the per-object path (`||`) but
used as-is on the client-level path (`??`). -/
theorem presign_expiry_defaults (n : Nat) (hn : n ≠ 0) :
    presignExpiresIn none = 900 ∧ presignedExpiresIn none = 3600 ∧
      presignExpiresIn (some n) = n ∧ presignedExpiresIn (some n) = n ∧
      presignExpiresIn (some 0) = 900 ∧ presignedExpiresIn (some 0) = 0 := by
  simp [presignExpiresIn, presignedExpiresIn, hn]

/-- Witness for C7's amended claim at `expiresIn = 5`. -/
theorem presign_expiry_defaults_witness :
    presignExpiresIn none = 900 ∧ presignedExpiresIn none = 3600 ∧
      presignExpiresIn (some 5) = 5 ∧ presignedExpiresIn (some 5) = 5 ∧
      presignExpiresIn (some 0) = 900 ∧ presignedExpiresIn (some 0) = 0 :=
  presign_expiry_defaults 5 (by decide)

/-! ## C6 — write content-type precedence -/

/-- C6: for request-like, response-like and blob-like payloads the stored
content type follows the precedence: a (nonempty) explicit per-call override
wins, then the instance default, then the payload's own embedded content type
(its `content-type` header, or intrinsic `type` tag when nonempty), then
unset. In particular a response-like payload with header
`content-type: application/json` and no override stores `application/json`
(instantiate `ht` there). -/
theorem write_content_type_precedence (bs : List Nat) (hdr : Option String)
    (ct it ht : String) (hct : ct ≠ "") (hit : it ≠ "") (hht : ht ≠ "") :
    writePut JVal.absent (some { type := .val ct }) (.responseLike bs hdr) =
        .ok (bs, some ct) ∧
      writePut JVal.absent (some { type := .val ct }) (.requestLike bs hdr) =
        .ok (bs, some ct) ∧
      writePut JVal.absent (some { type := .val ct }) (.blobLike bs ht) =
        .ok (bs, some ct) ∧
      writePut (JVal.val it) none (.responseLike bs hdr) = .ok (bs, some it) ∧
      writePut (JVal.val it) (some { type := .val ct }) (.responseLike bs hdr) =
        .ok (bs, some ct) ∧
      writePut JVal.absent none (.responseLike bs (some ht)) = .ok (bs, some ht) ∧
      writePut JVal.absent none (.requestLike bs (some ht)) = .ok (bs, some ht) ∧
      writePut JVal.absent none (.blobLike bs ht) = .ok (bs, some ht) ∧
      writePut JVal.absent none (.responseLike bs none) = .ok (bs, none) ∧
      writePut JVal.absent none (.blobLike bs "") = .ok (bs, none) := by
  refine ⟨?_, ?_, ?_, ?_, ?_, ?_, ?_, ?_, rfl, rfl⟩ <;>
    simp [writePut, jsOrStr, jsNullish, JVal.get?, strTruthy, hct, hit, hht]

/-- Witness for C6 at the spec's own instance: a response-like payload with
header `content-type: application/json` and no override stores
`application/json`; with override `text/plain` the override wins. -/
theorem write_content_type_precedence_witness :
    writePut JVal.absent none (.responseLike [104, 105] (some "application/json")) =
        .ok ([104, 105], some "application/json") ∧
      writePut JVal.absent (some { type := .val "text/plain" })
          (.responseLike [104, 105] (some "application/json")) =
        .ok ([104, 105], some "text/plain") :=
  ⟨(write_content_type_precedence [104, 105] (some "application/json") "text/plain"
      "x" "application/json" (by decide) (by decide) (by decide)).2.2.2.2.2.1,
    (write_content_type_precedence [104, 105] (some "application/json") "text/plain"
      "x" "application/json" (by decide) (by decide) (by decide)).1⟩

/-! ## C4 — filter pass-through on the listing call paths -/

/-- C4 counterexample: with every filter supplied, the command built by
`Client.list` (static, and the instance method that delegates to it) carries
only the bucket — all filters are dropped — refuting "on every call path". -/
theorem client_list_drops_filters_cex :
    clientListCommand
        (some
          { keyPrefix := some "p", continuationToken := some "t", delimiter := some "/",
            maxKeys := some 5, startAfter := some "s", encodingType := some "url",
            fetchOwner := some true })
        (some "b") =
      { Bucket := some "b" } := rfl

/-- C4 amended: the standalone `list` function passes every caller-supplied
filter (prefix, delimiter, continuation token, max keys, start-after,
fetch-owner, encoding type) through to the single listing call, while
`Client.list` — both the static path and the instance path that delegates to
it — issues the command with only the bucket, ignoring the caller's input. -/
theorem list_filter_passthrough (input : ListInput) (bucket : Option String) :
    listCommand (some input) bucket =
        { Bucket := bucket, Prefix := input.keyPrefix,
          ContinuationToken := input.continuationToken,
          Delimiter := input.delimiter, MaxKeys := input.maxKeys,
          FetchOwner := input.fetchOwner, EncodingType := input.encodingType,
          StartAfter := input.startAfter } ∧
      clientListCommand (some input) bucket = { Bucket := bucket } := by
  exact ⟨rfl, rfl⟩

/-! ## C3 — sparse normalization of list responses -/

/-- C3 counterexample: a raw response whose single content entry has an
`Owner` record without `ID`/`DisplayName` and a `RestoreStatus` without
`RestoreExpiryDate` normalizes to nested records whose members are present
with explicit `undefined` values, refuting "no member of the result is ever
present with an explicit undefined value". -/
theorem list_sparse_cex :
    responseSparse
        (listNormalize
          { Contents :=
              some
                [{ Key := some "k", ETag := some "e",
                   Owner := some {},
                   RestoreStatus := some { IsRestoreInProgress := some false } }] }) =
      false := by decide

/-- C3 amended: every top-level member of the normalized response, and every
member of each content entry itself, is written only when the corresponding
source field was present — never present-with-`undefined`; a response with
zero matching objects yields `contents` and `commonPrefixes` omitted (absent
source) or empty (empty source), never present-but-undefined. The exception
forced by the counterexample: inside a present `owner` the members `id` and
`displayName`, and inside a present `restoreStatus` the members
`isRestoreInProgress` and `restoreExpiryDate`, are written unconditionally
and may carry an explicit `undefined`. -/
theorem list_sparse_amended (raw : RawListResponse) :
    responseTopSparse (listNormalize raw) = true ∧
      (match (listNormalize raw).contents with
        | .val cs => cs.all contentShallowSparse
        | _ => true) = true ∧
      (listNormalize { raw with Contents := none }).contents = .absent ∧
      (listNormalize { raw with CommonPrefixes := none }).commonPrefixes = .absent ∧
      (listNormalize { raw with Contents := some [] }).contents = .val [] ∧
      (listNormalize { raw with CommonPrefixes := some [] }).commonPrefixes =
        .val [] := by
  refine ⟨?_, ?_, rfl, rfl, rfl, rfl⟩
  · simp [responseTopSparse, listNormalize, notUndefined_jvalOfTruthyStr,
      notUndefined_jvalOfPresent]
    constructor
    · cases raw.CommonPrefixes <;> rfl
    · cases raw.Contents <;> rfl
  · simp only [listNormalize]
    cases raw.Contents with
    | none => rfl
    | some cs =>
      simp only [List.all_eq_true, List.mem_map]
      rintro x ⟨c, _, rfl⟩
      exact contentShallowSparse_normalize c

end BlobJs
